import Mathlib

/-!
Verification development for the Wattpad story downloader
(`src/api/src/create_book.py`).  Python strings are embedded as lists of
Unicode code points (`List Nat`), matching Python's view of a `str` as a
sequence of code points.  Stateful network calls are embedded as pure
functions over explicit response oracles, returning an event trace
(requests issued, delays slept, progress titles emitted, book mutations)
alongside the result; a raised exception is an `Except.error` value.
-/

/-- Code points of a Lean string literal, used to write concrete inputs. -/
def cps (s : String) : List Nat := s.toList.map Char.toNat

/-- ASCII decimal digit. -/
def isAsciiDigit (c : Nat) : Bool := decide (48 ≤ c) && decide (c ≤ 57)

/-- ASCII lower-case letter. -/
def isAsciiLower (c : Nat) : Bool := decide (97 ≤ c) && decide (c ≤ 122)

/-- ASCII upper-case letter. -/
def isAsciiUpper (c : Nat) : Bool := decide (65 ≤ c) && decide (c ≤ 90)

/-- Models Python `str.lower` per code point.  Exact on ASCII; the identity
on every non-ASCII code point appearing in this development (all of which
are caseless in Unicode). -/
def pyLowerCp (c : Nat) : Nat := if isAsciiUpper c then c + 32 else c

/-- Models the Python regex class `\w` (word character) on a `str`:
alphanumeric or underscore.  Exact on ASCII; non-ASCII code points are
covered by a finite table for the (alphabetic, hence word) Hangul code
points used in this development, and default to `false`. -/
def isWordCp (c : Nat) : Bool :=
  isAsciiDigit c || isAsciiLower c || isAsciiUpper c || c == 95 ||
    c == 0x1100 || c == 0x1161 || c == 0xAC00

/-- Models the Python regex class `\s` on a `str`, restricted to ASCII:
space, tab, LF, VT, FF, CR and the separator controls U+001C-U+001F
(all of which `str.isspace` accepts).  Non-ASCII code points used in this
development are not whitespace, so the default `false` is exact there. -/
def isSpaceCp (c : Nat) : Bool :=
  c == 32 || (decide (9 ≤ c) && decide (c ≤ 13)) ||
    (decide (28 ≤ c) && decide (c ≤ 31))

/-- Models `unicodedata.normalize("NFKD", ·).encode("ascii", "ignore")`
per code point: an ASCII code point is NFKD-stable and survives the
encode, so it maps to itself; a non-ASCII code point maps to the ASCII
subsequence of its NFKD decomposition, which for every non-ASCII code
point used in this development is empty (none of them decompose to
anything ASCII), hence the default `[]`. -/
def nfkdAsciiCp (c : Nat) : List Nat := if c < 128 then [c] else []

/-- Models canonical composition of one adjacent pair under
`unicodedata.normalize("NFKC", ·)`, restricted to the code points used in
this development: the Hangul jamo pair U+1100 U+1161 composes to the
syllable U+AC00; no other pair of these code points composes. -/
def nfkcPairCp (a b : Nat) : Option Nat :=
  if a == 0x1100 && b == 0x1161 then some 0xAC00 else none

/-- Models `unicodedata.normalize("NFKC", ·)` on the inputs used in this
development: every code point used is NFKC-stable in isolation, so the
normalization reduces to composing adjacent composable pairs. -/
def nfkcCp : List Nat → List Nat
  | [] => []
  | [c] => [c]
  | a :: b :: rest =>
    match nfkcPairCp a b with
    | some c => c :: nfkcCp rest
    | none => a :: nfkcCp (b :: rest)

/-- The keep-set of `re.sub(r"[^\w\s-]", "", ·)`: word characters,
whitespace, and the hyphen (code point 45). -/
def keepCp (c : Nat) : Bool := isWordCp c || isSpaceCp c || c == 45

/-- Character class of the regex `[-\s]`: hyphen or whitespace. -/
def isDashSpace (c : Nat) : Bool := c == 45 || isSpaceCp c

/-- Models `re.sub(r"[-\s]+", "-", ·)`: each maximal nonempty run of
hyphens/whitespace is replaced by a single hyphen.  The boolean state
records whether the scan is currently inside such a run. -/
def collapseAux : Bool → List Nat → List Nat
  | _, [] => []
  | inRun, c :: rest =>
    if isDashSpace c then
      if inRun then collapseAux true rest
      else 45 :: collapseAux true rest
    else c :: collapseAux false rest

/-- `re.sub(r"[-\s]+", "-", ·)` starting outside a run. -/
def collapseDashSpace (v : List Nat) : List Nat := collapseAux false v

/-- The strip-set of `str.strip("-_")`: hyphen or underscore. -/
def isStripCp (c : Nat) : Bool := c == 45 || c == 95

/-- Models `str.strip("-_")`: remove leading and trailing hyphens and
underscores. -/
def stripEnds (v : List Nat) : List Nat :=
  ((v.dropWhile isStripCp).reverse.dropWhile isStripCp).reverse

/-- Embedding of `slugify(value, allow_unicode)` from create_book.py:
NFKC-normalize (Unicode mode) or NFKD-fold to ASCII (default mode), then
lower-case, strip characters outside `\w`, `\s`, `-`, collapse runs of
hyphens/whitespace to a single hyphen, and strip leading/trailing
hyphens and underscores. -/
def slugify (value : List Nat) (allow_unicode : Bool) : List Nat :=
  let v :=
    if allow_unicode then nfkcCp value
    else (value.map nfkdAsciiCp).flatten
  let v := (v.map pyLowerCp).filter keepCp
  stripEnds (collapseDashSpace v)

/-- Credentials: the cookie-name-to-value mapping produced by login and
passed to fetchers (a Python `dict` of strings). -/
abbrev Cred := List (List Nat × List Nat)

/-- An HTTP response as the code observes it: a status code and a parsed
body (`α` is the element type the call reads: text, bytes, or parsed
JSON). -/
structure Resp (α : Type) where
  status : Nat
  body : α
deriving DecidableEq

/-- `aiohttp`'s `response.ok`: true exactly when the status is below 400. -/
def respOk {α : Type} (r : Resp α) : Bool := decide (r.status < 400)

/-- One entry of `StoryRecord.parts`: a part identifier and title. -/
structure PartRef where
  id : Nat
  title : List Nat
deriving DecidableEq

/-- The story metadata record returned by the metadata endpoint (the field
set requested by `retrieve_story`). -/
structure StoryData where
  id : Nat
  title : List Nat
  description : List Nat
  createDate : List Nat
  modifyDate : List Nat
  language : List Nat
  tags : List (List Nat)
  completed : Bool
  mature : Bool
  url : List Nat
  isPaywalled : Bool
  user : List Nat
  parts : List PartRef
  cover : List Nat
deriving DecidableEq

/-- A chapter entry of the Document (`epub.EpubHtml` as constructed in
`add_chapters`): title, generated file name, language, and content. -/
structure Chapter where
  title : List Nat
  file_name : List Nat
  lang : List Nat
  content : List Nat
deriving DecidableEq

/-- An item of the Document's item list: a chapter document, the NCX
machine-readable contents index (`epub.EpubNcx`), or the navigation
document (`epub.EpubNav`). -/
inductive Item where
  | chapterItem (c : Chapter)
  | ncx
  | navDoc
deriving DecidableEq

/-- A spine entry: the `"nav"` marker naming the navigation document, or a
chapter. -/
inductive SpineEntry where
  | nav
  | chap (c : Chapter)
deriving DecidableEq

/-- The accumulating output Document (`epub.EpubBook`), restricted to the
fields this code writes. -/
structure Book where
  author : Option (List Nat)
  metadata : List (List Nat × List Nat)
  cover : Option (List Nat × List Nat)
  items : List Item
  toc : List Chapter
  spine : List SpineEntry
deriving DecidableEq

/-- A Document with nothing attached yet. -/
def emptyBook : Book :=
  { author := none, metadata := [], cover := none, items := [], toc := [],
    spine := [] }

/-- Observable events of a run, in order: requests issued (with the
cookies each carries), back-off sleeps, chapter-list appends, progress
emissions (generator yields), and chapter items added to the book. -/
inductive Ev where
  | loginReq (username : List Nat)
  | storyReq (story_id : Nat) (cookies : Cred)
  | sleepFor (seconds : Nat)
  | partReq (part_id : Nat) (cookies : Cred)
  | coverReq (url : List Nat) (cookies : Cred)
  | appendChapter (title : List Nat)
  | emitTitle (title : List Nat)
  | addItemEv (title : List Nat)
deriving DecidableEq

/-- Error raised by `wp_get_cookies` (a `ValueError` in the source; the
spec's AuthenticationError). -/
inductive AuthErr where
  | badStatus
  | noCookies
deriving DecidableEq

/-- Error escaping `retrieve_story`: the `asyncio.TimeoutError` raised
when the retried call fails again. -/
inductive RsErr where
  | timeout
deriving DecidableEq

/-- A login response: status plus the cookies the endpoint set. -/
structure LoginResp where
  status : Nat
  cookies : Cred
deriving DecidableEq

/-- Embedding of `wp_get_cookies(username, password)`: one POST to the
login endpoint with the username lower-cased; a non-204 status or an
empty cookie jar raises; otherwise the cookie mapping is returned. -/
def wp_get_cookies (username _password : List Nat) (r : LoginResp) :
    List Ev × Except AuthErr Cred :=
  ([Ev.loginReq (username.map pyLowerCp)],
   if r.status ≠ 204 then Except.error AuthErr.badStatus
   else if r.cookies = [] then Except.error AuthErr.noCookies
   else Except.ok r.cookies)

/-- Embedding of `retrieve_story(story_id, retry, cookies)` over an oracle
giving the response to each successive attempt.  The source's boolean
`retry` flag is embedded as remaining-retry fuel (`True` is `1`, `False`
is `0`); the recursive call `retrieve_story(story_id, retry=False)` is
the call with fuel `0`, and — as in the source — it is made with the
default (empty) cookies.  An ok response returns its body; a 404 or 400
returns the empty record (`none`); any other status raises `ValueError`,
which the `except` arm turns into a 15-second sleep and one retried call
when fuel remains, and into `asyncio.TimeoutError` otherwise. -/
def retrieve_story (oracle : Nat → Resp StoryData) (story_id : Nat)
    (retry : Nat) (cookies : Cred) (attempt : Nat) :
    List Ev × Except RsErr (Option StoryData) :=
  let r := oracle attempt
  if respOk r then
    ([Ev.storyReq story_id cookies], Except.ok (some r.body))
  else if r.status == 404 || r.status == 400 then
    ([Ev.storyReq story_id cookies], Except.ok none)
  else
    match retry with
    | 0 => ([Ev.storyReq story_id cookies], Except.error RsErr.timeout)
    | Nat.succ n =>
      let rest := retrieve_story oracle story_id n [] (attempt + 1)
      (Ev.storyReq story_id cookies :: Ev.sleepFor 15 :: rest.1, rest.2)

/-- Embedding of `fetch_part_content(part_id, retry, cookies)`: one GET;
ok returns the body text, 404/400 return the empty string, any other
status raises `ValueError` carrying the status code.  The `retry`
parameter is accepted and unused, as in the source. -/
def fetch_part_content (part_id : Nat) (_retry : Bool) (cookies : Cred)
    (r : Resp (List Nat)) : List Ev × Except Nat (List Nat) :=
  ([Ev.partReq part_id cookies],
   if respOk r then Except.ok r.body
   else if r.status == 404 || r.status == 400 then Except.ok []
   else Except.error r.status)

/-- Embedding of `fetch_cover(url, cookies)`: one GET; ok returns the
image bytes, 404/400 return empty bytes, any other status raises
`ValueError` carrying the status code. -/
def fetch_cover (url : List Nat) (cookies : Cred) (r : Resp (List Nat)) :
    List Ev × Except Nat (List Nat) :=
  ([Ev.coverReq url cookies],
   if respOk r then Except.ok r.body
   else if r.status == 404 || r.status == 400 then Except.ok []
   else Except.error r.status)

/-- `str(int(b))` for a boolean metadata flag. -/
def boolDigit (b : Bool) : List Nat := if b then cps "1" else cps "0"

/-- Embedding of `set_metadata(book, data)`: copy author, description,
dates, language, joined tags, and the maturity/completion flags into the
Document's metadata. -/
def set_metadata (book : Book) (data : StoryData) : Book :=
  { book with
    author := some data.user,
    metadata := book.metadata ++
      [(cps "description", data.description),
       (cps "created", data.createDate),
       (cps "modified", data.modifyDate),
       (cps "language", data.language),
       (cps "tags", List.intercalate (cps ", ") data.tags),
       (cps "mature", boolDigit data.mature),
       (cps "completed", boolDigit data.completed)] }

/-- Embedding of `set_cover(book, data)`: fetch the cover bytes for
`data["cover"]` and install them under the fixed name `cover.jpg`.  The
call to `fetch_cover` passes no cookies, so the fetch runs with the
default (empty) credentials. -/
def set_cover (book : Book) (data : StoryData) (r : Resp (List Nat)) :
    List Ev × Except Nat Book :=
  let fc := fetch_cover data.cover [] r
  (fc.1, fc.2.map fun b => { book with cover := some (cps "cover.jpg", b) })

/-- The fetch-construct-append-yield loop of `add_chapters`, over an
oracle giving each part's response by part id.  For each part in order:
fetch the content (propagating a raised status error, with the events so
far), build the `EpubHtml` chapter whose file name slugifies the title
and whose content is the title as a heading followed by the raw HTML,
append it to the local chapter list, and then yield the title. -/
def addChaptersLoop (lang : List Nat) (cookies : Cred)
    (oracle : Nat → Resp (List Nat)) :
    List PartRef → List Ev × Except Nat (List Chapter)
  | [] => ([], Except.ok [])
  | p :: rest =>
    let f := fetch_part_content p.id true cookies (oracle p.id)
    match f.2 with
    | Except.error s => (f.1, Except.error s)
    | Except.ok content =>
      let ch : Chapter :=
        { title := p.title,
          file_name := slugify p.title false ++ cps ".xhtml",
          lang := lang,
          content := cps "<h1>" ++ p.title ++ cps "</h1>" ++ content }
      let next := addChaptersLoop lang cookies oracle rest
      (f.1 ++ [Ev.appendChapter p.title, Ev.emitTitle p.title] ++ next.1,
       match next.2 with
       | Except.error s => Except.error s
       | Except.ok chs => Except.ok (ch :: chs))

/-- Embedding of `add_chapters(book, data, cookies)`: run the
fetch-and-yield loop over `data["parts"]`; if it completed, add each
chapter to the book's items, set the table of contents to the chapter
sequence, add the NCX and the navigation document as items, and set the
spine to `["nav"]` followed by the chapters. -/
def add_chapters (book : Book) (data : StoryData) (cookies : Cred)
    (oracle : Nat → Resp (List Nat)) : List Ev × Except Nat Book :=
  let lp := addChaptersLoop data.language cookies oracle data.parts
  match lp.2 with
  | Except.error s => (lp.1, Except.error s)
  | Except.ok chapters =>
    (lp.1 ++ chapters.map (fun c => Ev.addItemEv c.title),
     Except.ok
       { book with
         items := book.items ++ chapters.map Item.chapterItem ++
           [Item.ncx, Item.navDoc],
         toc := chapters,
         spine := [SpineEntry.nav] ++ chapters.map SpineEntry.chap })

/-- Error aborting an assembly run, per the spec's taxonomy. -/
inductive RunErr where
  | timeout
  | storyNotFound
  | reqError (status : Nat)
deriving DecidableEq

/-- Modelled from the spec: the Document Assembler driver — the code
that chains the calls of create_book.py into one run — is not under
`src/`; only its callees are.  Per spec sections 2 and 4.3: the
credentials produced at the start of the run are handed to the metadata
fetch and to `add_chapters`; the run fetches metadata (one retry
allowed, so fuel 1), aborts on a timeout or on the empty record,
attaches metadata, attaches the cover, then fetches and attaches the
chapters; any raised fetch error aborts the run. -/
def assemble_run (cookies : Cred) (story_id : Nat)
    (storyOracle : Nat → Resp StoryData) (coverResp : Resp (List Nat))
    (partOracle : Nat → Resp (List Nat)) : List Ev × Except RunErr Book :=
  let rs := retrieve_story storyOracle story_id 1 cookies 0
  match rs.2 with
  | Except.error _ => (rs.1, Except.error RunErr.timeout)
  | Except.ok none => (rs.1, Except.error RunErr.storyNotFound)
  | Except.ok (some data) =>
    let book1 := set_metadata emptyBook data
    let sc := set_cover book1 data coverResp
    match sc.2 with
    | Except.error s => (rs.1 ++ sc.1, Except.error (RunErr.reqError s))
    | Except.ok book2 =>
      let ac := add_chapters book2 data cookies partOracle
      match ac.2 with
      | Except.error s =>
        (rs.1 ++ sc.1 ++ ac.1, Except.error (RunErr.reqError s))
      | Except.ok book3 => (rs.1 ++ sc.1 ++ ac.1, Except.ok book3)

/-- A concrete story with one part, used by counterexamples and
witnesses. -/
def sampleStory : StoryData :=
  { id := 1, title := cps "Story", description := cps "d",
    createDate := cps "2020", modifyDate := cps "2021",
    language := cps "en", tags := [cps "tag"], completed := false,
    mature := false, url := cps "u", isPaywalled := false,
    user := cps "author", parts := [{ id := 11, title := cps "One" }],
    cover := cps "http://c" }

/-- An always-successful part-content oracle. -/
def sampleOk : Nat → Resp (List Nat) := fun _ => ⟨200, cps "<p>x</p>"⟩

/-- A sample credentials mapping. -/
def sampleCred : Cred := [(cps "token", cps "secret")]

/-- Response oracle whose first attempt fails with a 500 and whose second
attempt succeeds. -/
def c5Oracle : Nat → Resp StoryData :=
  fun n => if n == 0 then ⟨500, sampleStory⟩ else ⟨200, sampleStory⟩

/-- A part response that raises neither branch of the error policy: ok,
or the 404/400 not-found outcomes (which `fetch_part_content` converts
to an empty string). -/
def partOk (r : Resp (List Nat)) : Bool :=
  respOk r || r.status == 404 || r.status == 400

/-- The string `fetch_part_content` returns for a non-raising response. -/
def partFetchValue (r : Resp (List Nat)) : List Nat :=
  if respOk r then r.body else []

/-- The chapter entry `add_chapters` constructs for a part whose fetch
did not raise. -/
def mkChapter (lang : List Nat) (oracle : Nat → Resp (List Nat))
    (p : PartRef) : Chapter :=
  { title := p.title,
    file_name := slugify p.title false ++ cps ".xhtml",
    lang := lang,
    content := cps "<h1>" ++ p.title ++ cps "</h1>" ++
      partFetchValue (oracle p.id) }

/-- True only of chapter-item-added events. -/
def isAddItemEv : Ev → Bool
  | Ev.addItemEv _ => true
  | _ => false

/-- The title carried by a progress event, if the event is one. -/
def emitOf : Ev → Option (List Nat)
  | Ev.emitTitle t => some t
  | _ => none

/-- True only of the structural (non-chapter) spine entry. -/
def isStructuralSpine : SpineEntry → Bool
  | SpineEntry.nav => true
  | SpineEntry.chap _ => false

/-- True only of chapter-list-append events. -/
def evIsAppend : Ev → Bool
  | Ev.appendChapter _ => true
  | _ => false

/-- True only of progress-emission events. -/
def evIsEmit : Ev → Bool
  | Ev.emitTitle _ => true
  | _ => false

/-- The character alphabet the default-mode slugify output actually uses:
lower-case ASCII alphanumerics, underscore, hyphen. -/
def allowedCp (c : Nat) : Bool :=
  isAsciiLower c || isAsciiDigit c || c == 95 || c == 45

/-- The character alphabet claimed by the spec for default-mode slugify
output: lower-case ASCII alphanumerics and hyphen only. -/
def c2ClaimChar (c : Nat) : Bool :=
  isAsciiLower c || isAsciiDigit c || c == 45

/-- Adjacent-pair relation: at most one of the two is hyphen/whitespace. -/
abbrev DSok (a b : Nat) : Prop :=
  isDashSpace a = false ∨ isDashSpace b = false

/-- No two adjacent code points are both in the `[-\s]` class. -/
abbrev NoRun (l : List Nat) : Prop := List.Chain' DSok l

/-- The Document produced by the sample one-part successful run. -/
def c1Book : Book :=
  match (add_chapters emptyBook sampleStory [] sampleOk).2 with
  | Except.ok b => b
  | Except.error _ => emptyBook

/-- Whether an embedded call returned normally (no exception). -/
def exceptIsOkB {ε α : Type} : Except ε α → Bool
  | Except.ok _ => true
  | Except.error _ => false

/-- An always-failing part-content oracle (a genuine 500 error). -/
def sampleBad : Nat → Resp (List Nat) := fun _ => ⟨500, cps "boom"⟩

example : slugify (cps "a_b") false = cps "a_b" := by decide
example : slugify (cps "Hello  World--x") false = cps "hello-world-x" := by
  decide
example : slugify [0x1100, 46, 0x1161] true = [0x1100, 0x1161] := by decide
example : slugify [0x1100, 0x1161] true = [0xAC00] := by decide

example :
    (add_chapters emptyBook sampleStory [] sampleOk).1 =
      [Ev.partReq 11 [], Ev.appendChapter (cps "One"),
       Ev.emitTitle (cps "One"), Ev.addItemEv (cps "One")] := by decide

example :
    (assemble_run sampleCred 1 (fun _ => ⟨200, sampleStory⟩) ⟨200, [7]⟩
      sampleOk).1 =
      [Ev.storyReq 1 sampleCred, Ev.coverReq (cps "http://c") [],
       Ev.partReq 11 sampleCred, Ev.appendChapter (cps "One"),
       Ev.emitTitle (cps "One"), Ev.addItemEv (cps "One")] := by decide

/-- C5: fetch-story-metadata policy.  A 404 or 400 on the first attempt
returns the empty record with a single request issued (no retry, no
raise); an ok response returns the record; any other status sleeps 15
time units and retries exactly once with no further retry (the trace is
request, sleep 15, request); and if the retried attempt also fails with
a non-ok, non-404/400 status, the call fails with the TimeoutError. -/
theorem retrieve_story_retry_policy (oracle : Nat → Resp StoryData)
    (sid : Nat) (cookies : Cred) :
    (respOk (oracle 0) = true →
      retrieve_story oracle sid 1 cookies 0 =
        ([Ev.storyReq sid cookies], Except.ok (some (oracle 0).body))) ∧
    ((oracle 0).status = 404 ∨ (oracle 0).status = 400 →
      retrieve_story oracle sid 1 cookies 0 =
        ([Ev.storyReq sid cookies], Except.ok none)) ∧
    (respOk (oracle 0) = false →
      ¬((oracle 0).status = 404 ∨ (oracle 0).status = 400) →
      (retrieve_story oracle sid 1 cookies 0).1 =
        [Ev.storyReq sid cookies, Ev.sleepFor 15, Ev.storyReq sid []] ∧
      (respOk (oracle 1) = true →
        (retrieve_story oracle sid 1 cookies 0).2 =
          Except.ok (some (oracle 1).body)) ∧
      ((oracle 1).status = 404 ∨ (oracle 1).status = 400 →
        (retrieve_story oracle sid 1 cookies 0).2 = Except.ok none) ∧
      (respOk (oracle 1) = false →
        ¬((oracle 1).status = 404 ∨ (oracle 1).status = 400) →
        (retrieve_story oracle sid 1 cookies 0).2 =
          Except.error RsErr.timeout)) := by
  refine ⟨fun h => ?_, fun h => ?_, fun h1 h2 => ?_⟩
  · simp [retrieve_story, h]
  · have hok : respOk (oracle 0) = false := by
      obtain h | h := h <;> simp [respOk, h]
    obtain h | h := h <;> simp [retrieve_story, hok, h]
  · have h404 : ((oracle 0).status == 404) = false := by
      simp only [beq_eq_false_iff_ne, ne_eq]
      exact fun hh => h2 (Or.inl hh)
    have h400 : ((oracle 0).status == 400) = false := by
      simp only [beq_eq_false_iff_ne, ne_eq]
      exact fun hh => h2 (Or.inr hh)
    refine ⟨?_, fun h => ?_, fun h => ?_, fun h3 h4 => ?_⟩
    · simp only [retrieve_story, h1, h404, h400, Bool.false_eq_true,
        if_false, Bool.or_self]
      split
      · rfl
      · split <;> rfl
    · simp [retrieve_story, h1, h404, h400, h]
    · have hok : respOk (oracle 1) = false := by
        obtain h | h := h <;> simp [respOk, h]
      obtain h | h := h <;> simp [retrieve_story, h1, h404, h400, hok, h]
    · have h404b : ((oracle 1).status == 404) = false := by
        simp only [beq_eq_false_iff_ne, ne_eq]
        exact fun hh => h4 (Or.inl hh)
      have h400b : ((oracle 1).status == 400) = false := by
        simp only [beq_eq_false_iff_ne, ne_eq]
        exact fun hh => h4 (Or.inr hh)
      simp [retrieve_story, h1, h404, h400, h3, h404b, h400b]

/-- Witness for C5: a 500 then a 200 produce the trace request, sleep 15,
request and return the second body. -/
theorem retrieve_story_retry_policy_witness :
    (retrieve_story c5Oracle 1 1 sampleCred 0).1 =
      [Ev.storyReq 1 sampleCred, Ev.sleepFor 15, Ev.storyReq 1 []] ∧
    (retrieve_story c5Oracle 1 1 sampleCred 0).2 =
      Except.ok (some (c5Oracle 1).body) := by
  have h := (retrieve_story_retry_policy c5Oracle 1 sampleCred).2.2
    (by decide) (by decide)
  exact ⟨h.1, h.2.1 (by decide)⟩

/-- C6: chapter-content and cover fetches map a 404 or 400 to an empty
result without raising, fail with an error carrying the status code on
every other non-ok status, and issue exactly one request either way (no
retry). -/
theorem part_cover_notfound_policy (pid : Nat) (ret : Bool)
    (cookies : Cred) (r : Resp (List Nat)) (url : List Nat)
    (ccookies : Cred) (rc : Resp (List Nat)) :
    ((r.status = 404 ∨ r.status = 400) →
      (fetch_part_content pid ret cookies r).2 = Except.ok []) ∧
    (respOk r = false → ¬(r.status = 404 ∨ r.status = 400) →
      (fetch_part_content pid ret cookies r).2 = Except.error r.status) ∧
    (fetch_part_content pid ret cookies r).1 = [Ev.partReq pid cookies] ∧
    ((rc.status = 404 ∨ rc.status = 400) →
      (fetch_cover url ccookies rc).2 = Except.ok []) ∧
    (respOk rc = false → ¬(rc.status = 404 ∨ rc.status = 400) →
      (fetch_cover url ccookies rc).2 = Except.error rc.status) ∧
    (fetch_cover url ccookies rc).1 = [Ev.coverReq url ccookies] := by
  refine ⟨fun h => ?_, fun h1 h2 => ?_, rfl, fun h => ?_, fun h1 h2 => ?_,
    rfl⟩
  · have hok : respOk r = false := by
      obtain h | h := h <;> simp [respOk, h]
    obtain h | h := h <;> simp [fetch_part_content, hok, h]
  · have h404 : (r.status == 404) = false := by
      simp only [beq_eq_false_iff_ne, ne_eq]
      exact fun hh => h2 (Or.inl hh)
    have h400 : (r.status == 400) = false := by
      simp only [beq_eq_false_iff_ne, ne_eq]
      exact fun hh => h2 (Or.inr hh)
    simp [fetch_part_content, h1, h404, h400]
  · have hok : respOk rc = false := by
      obtain h | h := h <;> simp [respOk, h]
    obtain h | h := h <;> simp [fetch_cover, hok, h]
  · have h404 : (rc.status == 404) = false := by
      simp only [beq_eq_false_iff_ne, ne_eq]
      exact fun hh => h2 (Or.inl hh)
    have h400 : (rc.status == 400) = false := by
      simp only [beq_eq_false_iff_ne, ne_eq]
      exact fun hh => h2 (Or.inr hh)
    simp [fetch_cover, h1, h404, h400]

/-- Witness for C6: a 404 chapter response yields the empty string and a
500 cover response raises with status 500. -/
theorem part_cover_notfound_policy_witness :
    (fetch_part_content 11 true sampleCred ⟨404, cps "gone"⟩).2 =
      Except.ok [] ∧
    (fetch_cover (cps "http://c") [] (⟨500, [9]⟩ : Resp (List Nat))).2 =
      Except.error (⟨500, [9]⟩ : Resp (List Nat)).status := by
  have h := part_cover_notfound_policy 11 true sampleCred ⟨404, cps "gone"⟩
    (cps "http://c") [] ⟨500, [9]⟩
  exact ⟨h.1 (by decide), h.2.2.2.2.1 (by decide) (by decide)⟩

/-- C8: login fails exactly when the status is not 204 or when it is 204
but no cookies were issued; on success it returns the endpoint's
non-empty cookie mapping; and it issues exactly one request. -/
theorem login_failure_characterization (u p : List Nat) (r : LoginResp) :
    ((∃ e, (wp_get_cookies u p r).2 = Except.error e) ↔
      (r.status ≠ 204 ∨ r.cookies = [])) ∧
    (∀ c, (wp_get_cookies u p r).2 = Except.ok c →
      c = r.cookies ∧ c ≠ []) ∧
    (wp_get_cookies u p r).1 = [Ev.loginReq (u.map pyLowerCp)] := by
  refine ⟨?_, fun c hc => ?_, rfl⟩
  · simp only [wp_get_cookies]
    split_ifs with h1 h2 <;> simp_all
  · simp only [wp_get_cookies] at hc
    split_ifs at hc
    simp_all

lemma fetch_part_content_of_ok (pid : Nat) (ret : Bool) (cookies : Cred)
    (r : Resp (List Nat)) (h : partOk r = true) :
    fetch_part_content pid ret cookies r =
      ([Ev.partReq pid cookies], Except.ok (partFetchValue r)) := by
  by_cases hk : respOk r = true
  · simp [fetch_part_content, partFetchValue, hk]
  · have hb : (r.status == 404 || r.status == 400) = true := by
      simpa [partOk, hk] using h
    simp only [Bool.not_eq_true] at hk
    simp [fetch_part_content, partFetchValue, hk, hb]

lemma fetch_part_content_of_err (pid : Nat) (ret : Bool) (cookies : Cred)
    (r : Resp (List Nat)) (h : partOk r = false) :
    fetch_part_content pid ret cookies r =
      ([Ev.partReq pid cookies], Except.error r.status) := by
  simp only [partOk, Bool.or_eq_false_iff] at h
  simp [fetch_part_content, h.1.1, h.1.2, h.2]

lemma addChaptersLoop_of_ok (lang : List Nat) (cookies : Cred)
    (oracle : Nat → Resp (List Nat)) (parts : List PartRef)
    (h : (parts.all fun p => partOk (oracle p.id)) = true) :
    addChaptersLoop lang cookies oracle parts =
      ((parts.map fun p =>
          [Ev.partReq p.id cookies, Ev.appendChapter p.title,
           Ev.emitTitle p.title]).flatten,
       Except.ok (parts.map (mkChapter lang oracle))) := by
  induction parts with
  | nil => simp [addChaptersLoop]
  | cons p rest ih =>
    rw [List.all_cons, Bool.and_eq_true] at h
    simp [addChaptersLoop, fetch_part_content_of_ok p.id true cookies
      (oracle p.id) h.1, ih h.2, mkChapter]

lemma addChaptersLoop_of_err (lang : List Nat) (cookies : Cred)
    (oracle : Nat → Resp (List Nat)) (parts : List PartRef)
    (h : (parts.all fun p => partOk (oracle p.id)) = false) :
    ∃ s, (addChaptersLoop lang cookies oracle parts).2 = Except.error s := by
  induction parts with
  | nil => simp at h
  | cons p rest ih =>
    rw [List.all_cons, Bool.and_eq_false_iff] at h
    by_cases hp : partOk (oracle p.id) = true
    · obtain h | h := h
      · rw [hp] at h; cases h
      · obtain ⟨s, hs⟩ := ih h
        exact ⟨s, by simp [addChaptersLoop, fetch_part_content_of_ok p.id
          true cookies (oracle p.id) hp, hs]⟩
    · simp only [Bool.not_eq_true] at hp
      exact ⟨(oracle p.id).status, by
        simp [addChaptersLoop, fetch_part_content_of_err p.id true cookies
          (oracle p.id) hp]⟩

lemma addChaptersLoop_ev_shape (lang : List Nat) (cookies : Cred)
    (oracle : Nat → Resp (List Nat)) (parts : List PartRef) :
    ∀ e ∈ (addChaptersLoop lang cookies oracle parts).1,
      (∃ pid, e = Ev.partReq pid cookies) ∨
      (∃ t, e = Ev.appendChapter t) ∨ (∃ t, e = Ev.emitTitle t) := by
  induction parts with
  | nil => simp [addChaptersLoop]
  | cons p rest ih =>
    intro e he
    simp only [addChaptersLoop] at he
    rcases hf : (fetch_part_content p.id true cookies (oracle p.id)).2 with
      s | content
    · rw [hf] at he
      simp only [fetch_part_content, List.mem_singleton] at he
      exact Or.inl ⟨p.id, he⟩
    · rw [hf] at he
      simp only [fetch_part_content, List.cons_append, List.nil_append,
        List.mem_cons] at he
      rcases he with he | he | he | he
      · exact Or.inl ⟨p.id, he⟩
      · exact Or.inr (Or.inl ⟨p.title, he⟩)
      · exact Or.inr (Or.inr ⟨p.title, he⟩)
      · exact ih e he

lemma add_chapters_of_ok (book : Book) (data : StoryData) (cookies : Cred)
    (oracle : Nat → Resp (List Nat))
    (h : (data.parts.all fun p => partOk (oracle p.id)) = true) :
    add_chapters book data cookies oracle =
      ((data.parts.map fun p =>
          [Ev.partReq p.id cookies, Ev.appendChapter p.title,
           Ev.emitTitle p.title]).flatten ++
        (data.parts.map fun p => Ev.addItemEv p.title),
       Except.ok
         { book with
           items := book.items ++
             (data.parts.map (mkChapter data.language oracle)).map
               Item.chapterItem ++ [Item.ncx, Item.navDoc],
           toc := data.parts.map (mkChapter data.language oracle),
           spine := [SpineEntry.nav] ++
             (data.parts.map (mkChapter data.language oracle)).map
               SpineEntry.chap }) := by
  simp only [add_chapters, addChaptersLoop_of_ok data.language cookies
    oracle data.parts h, List.map_map]
  rfl

lemma flatten_triple_no_addItem (cookies : Cred) (parts : List PartRef) :
    ∀ e ∈ (parts.map fun p =>
        [Ev.partReq p.id cookies, Ev.appendChapter p.title,
         Ev.emitTitle p.title]).flatten, isAddItemEv e = false := by
  induction parts with
  | nil => simp
  | cons p rest ih =>
    intro e he
    rw [List.map_cons, List.flatten_cons, List.mem_append] at he
    rcases he with he | he
    · simp only [List.mem_cons, List.not_mem_nil, or_false] at he
      rcases he with he | he | he <;> (subst he; rfl)
    · exact ih e he

/-- Witness for C8: a 204 with one cookie succeeds with that non-empty
mapping. -/
theorem login_failure_characterization_witness :
    sampleCred = (⟨204, sampleCred⟩ : LoginResp).cookies ∧
      sampleCred ≠ [] :=
  (login_failure_characterization (cps "User") (cps "pw")
    ⟨204, sampleCred⟩).2.1 sampleCred (by rfl)


lemma add_chapters_of_ok_fst (book : Book) (data : StoryData)
    (cookies : Cred) (oracle : Nat → Resp (List Nat))
    (h : (data.parts.all fun p => partOk (oracle p.id)) = true) :
    (add_chapters book data cookies oracle).1 =
      (data.parts.map fun p =>
        [Ev.partReq p.id cookies, Ev.appendChapter p.title,
         Ev.emitTitle p.title]).flatten ++
      (data.parts.map fun p => Ev.addItemEv p.title) := by
  rw [add_chapters_of_ok book data cookies oracle h]

lemma add_chapters_of_ok_snd (book : Book) (data : StoryData)
    (cookies : Cred) (oracle : Nat → Resp (List Nat))
    (h : (data.parts.all fun p => partOk (oracle p.id)) = true) :
    (add_chapters book data cookies oracle).2 =
      Except.ok
        { book with
          items := book.items ++
            (data.parts.map (mkChapter data.language oracle)).map
              Item.chapterItem ++ [Item.ncx, Item.navDoc],
          toc := data.parts.map (mkChapter data.language oracle),
          spine := [SpineEntry.nav] ++
            (data.parts.map (mkChapter data.language oracle)).map
              SpineEntry.chap } := by
  rw [add_chapters_of_ok book data cookies oracle h]

/-- C1 (counterexample): on a one-part story the assembled spine has
exactly two entries, and those first two entries are not both structural
— the entry after the navigation marker is already the chapter itself.
The claimed spine `[navigation, contents-index, chapter_1]` would have
three entries with two structural ones in front. -/
theorem spine_two_structural_refuted :
    exceptIsOkB (add_chapters emptyBook sampleStory [] sampleOk).2 =
      true ∧
    c1Book.spine.length = 2 ∧
    (c1Book.spine.take 2).all isStructuralSpine = false := by decide

/-- C1 (amended): a successful assembly leaves the spine as exactly the
navigation entry followed by the chapters in `StoryRecord.parts` order
(one synthetic structural entry on the spine, not two); the
machine-readable contents index and the navigation document are both
added to the Document's item list. -/
theorem spine_nav_then_chapters (book : Book) (data : StoryData)
    (cookies : Cred) (oracle : Nat → Resp (List Nat)) :
    ∀ b', (add_chapters book data cookies oracle).2 = Except.ok b' →
      b'.spine = SpineEntry.nav :: b'.toc.map SpineEntry.chap ∧
      b'.toc.map Chapter.title = data.parts.map PartRef.title ∧
      Item.ncx ∈ b'.items ∧ Item.navDoc ∈ b'.items := by
  intro b' h
  by_cases hall : (data.parts.all fun p => partOk (oracle p.id)) = true
  · rw [add_chapters_of_ok_snd book data cookies oracle hall] at h
    cases h
    refine ⟨rfl, ?_, by simp, by simp⟩
    rw [List.map_map]
    rfl
  · simp only [Bool.not_eq_true] at hall
    obtain ⟨s, hs⟩ := addChaptersLoop_of_err data.language cookies oracle
      data.parts hall
    simp only [add_chapters] at h
    rw [hs] at h
    cases h

/-- Witness for C1: the sample run's Document satisfies the amended
spine shape. -/
theorem spine_nav_then_chapters_witness :
    c1Book.spine = SpineEntry.nav :: c1Book.toc.map SpineEntry.chap ∧
    c1Book.toc.map Chapter.title = sampleStory.parts.map PartRef.title ∧
    Item.ncx ∈ c1Book.items ∧ Item.navDoc ∈ c1Book.items :=
  spine_nav_then_chapters emptyBook sampleStory [] sampleOk c1Book rfl

/-- C4 (counterexample): in the one-part sample run, the append-to-
chapter-sequence event strictly precedes the progress emission for that
chapter, so the progress event is not emitted before the entry is
appended. -/
theorem emit_before_append_refuted :
    (add_chapters emptyBook sampleStory [] sampleOk).1 =
      [Ev.partReq 11 [], Ev.appendChapter (cps "One"),
       Ev.emitTitle (cps "One"), Ev.addItemEv (cps "One")] ∧
    (add_chapters emptyBook sampleStory [] sampleOk).1.findIdx evIsAppend <
      (add_chapters emptyBook sampleStory [] sampleOk).1.findIdx
        evIsEmit := by
  exact ⟨by decide, by decide⟩

/-- C4 (amended): in a successful run each chapter produces, in order,
its content request, the append of its entry to the chapter sequence,
and then the progress emission of its title — the emission comes
immediately after the append (and after retrieval succeeds), and every
emission precedes every chapter-item addition to the book. -/
theorem emit_after_append_order (book : Book) (data : StoryData)
    (cookies : Cred) (oracle : Nat → Resp (List Nat))
    (h : (data.parts.all fun p => partOk (oracle p.id)) = true) :
    (add_chapters book data cookies oracle).1 =
      (data.parts.map fun p =>
        [Ev.partReq p.id cookies, Ev.appendChapter p.title,
         Ev.emitTitle p.title]).flatten ++
      (data.parts.map fun p => Ev.addItemEv p.title) :=
  add_chapters_of_ok_fst book data cookies oracle h

/-- Witness for C4: the amended per-chapter event order on the sample
run. -/
theorem emit_after_append_order_witness :
    (add_chapters emptyBook sampleStory [] sampleOk).1 =
      (sampleStory.parts.map fun p =>
        [Ev.partReq p.id [], Ev.appendChapter p.title,
         Ev.emitTitle p.title]).flatten ++
      (sampleStory.parts.map fun p => Ev.addItemEv p.title) :=
  emit_after_append_order emptyBook sampleStory [] sampleOk (by decide)

/-- C7: a successful assembly over N parts emits exactly the N part
titles as progress events, in parts order, and completes (returns a
Document). -/
theorem progress_events_complete (book : Book) (data : StoryData)
    (cookies : Cred) (oracle : Nat → Resp (List Nat))
    (h : (data.parts.all fun p => partOk (oracle p.id)) = true) :
    (add_chapters book data cookies oracle).1.filterMap emitOf =
      data.parts.map PartRef.title ∧
    exceptIsOkB (add_chapters book data cookies oracle).2 = true := by
  constructor
  · rw [add_chapters_of_ok_fst book data cookies oracle h,
      List.filterMap_append]
    have hA : ∀ ps : List PartRef,
        ((ps.map fun p =>
          [Ev.partReq p.id cookies, Ev.appendChapter p.title,
           Ev.emitTitle p.title]).flatten.filterMap emitOf) =
          ps.map PartRef.title := by
      intro ps
      induction ps with
      | nil => simp
      | cons p rest ih => simp [emitOf, ih]
    have hB : ∀ ps : List PartRef,
        ((ps.map fun p => Ev.addItemEv p.title).filterMap emitOf) = [] := by
      intro ps
      induction ps with
      | nil => simp
      | cons p rest ih => simp [emitOf, ih]
    rw [hA, hB, List.append_nil]
  · rw [add_chapters_of_ok_snd book data cookies oracle h]
    rfl

/-- Witness for C7: the sample run emits exactly its one part title. -/
theorem progress_events_complete_witness :
    (add_chapters emptyBook sampleStory [] sampleOk).1.filterMap emitOf =
      sampleStory.parts.map PartRef.title ∧
    exceptIsOkB (add_chapters emptyBook sampleStory [] sampleOk).2 =
      true :=
  progress_events_complete emptyBook sampleStory [] sampleOk (by decide)

/-- C10: chapter attachment is atomic.  In a successful run the trace is
the fetch/append/emit phase — which contains no item-addition event —
followed by the item additions; and if any part fetch raises, the call
raises (returns no Document) and its trace contains no item-addition
event at all, so the book receives no chapter. -/
theorem chapters_attached_atomically (book : Book) (data : StoryData)
    (cookies : Cred) (oracle : Nat → Resp (List Nat)) :
    ((data.parts.all fun p => partOk (oracle p.id)) = true →
      (add_chapters book data cookies oracle).1 =
        (data.parts.map fun p =>
          [Ev.partReq p.id cookies, Ev.appendChapter p.title,
           Ev.emitTitle p.title]).flatten ++
        (data.parts.map fun p => Ev.addItemEv p.title) ∧
      ((data.parts.map fun p =>
          [Ev.partReq p.id cookies, Ev.appendChapter p.title,
           Ev.emitTitle p.title]).flatten.all
        fun e => !(isAddItemEv e)) = true) ∧
    ((data.parts.all fun p => partOk (oracle p.id)) = false →
      exceptIsOkB (add_chapters book data cookies oracle).2 = false ∧
      ((add_chapters book data cookies oracle).1.all
        fun e => !(isAddItemEv e)) = true) := by
  constructor
  · intro h
    refine ⟨add_chapters_of_ok_fst book data cookies oracle h, ?_⟩
    rw [List.all_eq_true]
    intro e he
    rw [Bool.not_eq_true']
    exact flatten_triple_no_addItem cookies data.parts e he
  · intro h
    obtain ⟨s, hs⟩ := addChaptersLoop_of_err data.language cookies oracle
      data.parts h
    constructor
    · simp only [add_chapters]
      rw [hs]
      rfl
    · simp only [add_chapters]
      rw [hs]
      show ((addChaptersLoop data.language cookies oracle data.parts).1.all
        fun e => !(isAddItemEv e)) = true
      rw [List.all_eq_true]
      intro e he
      rw [Bool.not_eq_true']
      rcases addChaptersLoop_ev_shape data.language cookies oracle
        data.parts e he with ⟨pid, rfl⟩ | ⟨t, rfl⟩ | ⟨t, rfl⟩ <;> rfl

/-- Witness for C10: a run whose only part fetch returns a 500 raises
and produces no item-addition event. -/
theorem chapters_attached_atomically_witness :
    exceptIsOkB (add_chapters emptyBook sampleStory [] sampleBad).2 =
      false ∧
    ((add_chapters emptyBook sampleStory [] sampleBad).1.all
      fun e => !(isAddItemEv e)) = true :=
  (chapters_attached_atomically emptyBook sampleStory [] sampleBad).2
    (by decide)

lemma retrieve_story_fst_zero (oracle : Nat → Resp StoryData) (sid : Nat)
    (cookies : Cred) (attempt : Nat) :
    (retrieve_story oracle sid 0 cookies attempt).1 =
      [Ev.storyReq sid cookies] := by
  simp only [retrieve_story]
  split
  · rfl
  · split <;> rfl

lemma retrieve_story_ev_shape (oracle : Nat → Resp StoryData) (sid : Nat) :
    ∀ (fuel : Nat) (cookies : Cred) (attempt : Nat) (e : Ev),
      e ∈ (retrieve_story oracle sid fuel cookies attempt).1 →
      (∃ cs, e = Ev.storyReq sid cs ∧ (cs = cookies ∨ cs = [])) ∨
      e = Ev.sleepFor 15 := by
  intro fuel
  induction fuel with
  | zero =>
    intro cookies attempt e he
    rw [retrieve_story_fst_zero, List.mem_singleton] at he
    exact Or.inl ⟨cookies, he, Or.inl rfl⟩
  | succ n ih =>
    intro cookies attempt e he
    simp only [retrieve_story] at he
    by_cases h1 : respOk (oracle attempt) = true
    · simp [h1] at he
      exact Or.inl ⟨cookies, he, Or.inl rfl⟩
    · by_cases h2 : ((oracle attempt).status == 404 ||
          (oracle attempt).status == 400) = true
      · simp [h1, h2] at he
        exact Or.inl ⟨cookies, he, Or.inl rfl⟩
      · simp [h1, h2] at he
        rcases he with he | he | he
        · exact Or.inl ⟨cookies, he, Or.inl rfl⟩
        · exact Or.inr he
        · rcases ih [] (attempt + 1) e he with ⟨cs, hcs, h'⟩ | hsl
          · exact Or.inl ⟨cs, hcs, Or.inr (h'.elim id id)⟩
          · exact Or.inr hsl

lemma add_chapters_ev_shape (book : Book) (data : StoryData)
    (cookies : Cred) (oracle : Nat → Resp (List Nat)) :
    ∀ e ∈ (add_chapters book data cookies oracle).1,
      (∃ pid, e = Ev.partReq pid cookies) ∨
      (∃ t, e = Ev.appendChapter t) ∨ (∃ t, e = Ev.emitTitle t) ∨
      (∃ t, e = Ev.addItemEv t) := by
  intro e he
  simp only [add_chapters] at he
  rcases hl : (addChaptersLoop data.language cookies oracle data.parts).2
    with s | chs
  · rw [hl] at he
    replace he :
        e ∈ (addChaptersLoop data.language cookies oracle data.parts).1 :=
      he
    rcases addChaptersLoop_ev_shape data.language cookies oracle data.parts
      e he with h | h | h
    · exact Or.inl h
    · exact Or.inr (Or.inl h)
    · exact Or.inr (Or.inr (Or.inl h))
  · rw [hl] at he
    replace he :
        e ∈ (addChaptersLoop data.language cookies oracle data.parts).1 ++
          chs.map (fun c => Ev.addItemEv c.title) := he
    rw [List.mem_append] at he
    rcases he with he | he
    · rcases addChaptersLoop_ev_shape data.language cookies oracle
        data.parts e he with h | h | h
      · exact Or.inl h
      · exact Or.inr (Or.inl h)
      · exact Or.inr (Or.inr (Or.inl h))
    · rw [List.mem_map] at he
      obtain ⟨c, _, rfl⟩ := he
      exact Or.inr (Or.inr (Or.inr ⟨c.title, rfl⟩))

lemma run_ev_shape (cookies : Cred) (sid : Nat)
    (so : Nat → Resp StoryData) (cr : Resp (List Nat))
    (po : Nat → Resp (List Nat)) :
    ∀ e ∈ (assemble_run cookies sid so cr po).1,
      (∃ cs, e = Ev.storyReq sid cs ∧ (cs = cookies ∨ cs = [])) ∨
      e = Ev.sleepFor 15 ∨ (∃ url, e = Ev.coverReq url []) ∨
      (∃ pid, e = Ev.partReq pid cookies) ∨
      (∃ t, e = Ev.appendChapter t) ∨ (∃ t, e = Ev.emitTitle t) ∨
      (∃ t, e = Ev.addItemEv t) := by
  intro e he
  simp only [assemble_run] at he
  split at he
  · replace he : e ∈ (retrieve_story so sid 1 cookies 0).1 := he
    rcases retrieve_story_ev_shape so sid 1 cookies 0 e he with h | h
    · exact Or.inl h
    · exact Or.inr (Or.inl h)
  · replace he : e ∈ (retrieve_story so sid 1 cookies 0).1 := he
    rcases retrieve_story_ev_shape so sid 1 cookies 0 e he with h | h
    · exact Or.inl h
    · exact Or.inr (Or.inl h)
  · rename_i data _
    split at he
    · replace he : e ∈ (retrieve_story so sid 1 cookies 0).1 ++
          [Ev.coverReq data.cover []] := he
      rw [List.mem_append, List.mem_singleton] at he
      rcases he with he | he
      · rcases retrieve_story_ev_shape so sid 1 cookies 0 e he with h | h
        · exact Or.inl h
        · exact Or.inr (Or.inl h)
      · exact Or.inr (Or.inr (Or.inl ⟨data.cover, he⟩))
    · rename_i book2 _
      split at he <;>
      · replace he : e ∈ ((retrieve_story so sid 1 cookies 0).1 ++
            [Ev.coverReq data.cover []]) ++
            (add_chapters book2 data cookies po).1 := he
        rw [List.mem_append, List.mem_append, List.mem_singleton] at he
        rcases he with (he | he) | he
        · rcases retrieve_story_ev_shape so sid 1 cookies 0 e he
            with h | h
          · exact Or.inl h
          · exact Or.inr (Or.inl h)
        · exact Or.inr (Or.inr (Or.inl ⟨data.cover, he⟩))
        · rcases add_chapters_ev_shape book2 data cookies po e he
            with h | h | h | h
          · exact Or.inr (Or.inr (Or.inr (Or.inl h)))
          · exact Or.inr (Or.inr (Or.inr (Or.inr (Or.inl h))))
          · exact Or.inr (Or.inr (Or.inr (Or.inr (Or.inr (Or.inl h)))))
          · exact Or.inr (Or.inr (Or.inr (Or.inr (Or.inr (Or.inr h)))))

/-- C3 (counterexample): in a run that was given a non-empty credentials
mapping, the cover fetch is issued with the empty default credentials,
not the run's credentials — `set_cover` calls `fetch_cover` without
passing the cookies along. -/
theorem credentials_every_call_refuted :
    Ev.coverReq (cps "http://c") [] ∈
      (assemble_run sampleCred 1 (fun _ => ⟨200, sampleStory⟩) ⟨200, [7]⟩
        sampleOk).1 ∧
    ([] : Cred) ≠ sampleCred := by
  exact ⟨by decide, by decide⟩

lemma retrieve_story_one_fst (oracle : Nat → Resp StoryData) (sid : Nat)
    (cookies : Cred) :
    (retrieve_story oracle sid 1 cookies 0).1 =
      [Ev.storyReq sid cookies] ∨
    (retrieve_story oracle sid 1 cookies 0).1 =
      [Ev.storyReq sid cookies, Ev.sleepFor 15, Ev.storyReq sid []] := by
  simp only [retrieve_story]
  split
  · exact Or.inl rfl
  · split
    · exact Or.inl rfl
    · refine Or.inr ?_
      split
      · rfl
      · split <;> rfl

lemma assemble_run_fst_decomp (cookies : Cred) (sid : Nat)
    (so : Nat → Resp StoryData) (cr : Resp (List Nat))
    (po : Nat → Resp (List Nat)) :
    ∃ rest : List Ev,
      (assemble_run cookies sid so cr po).1 =
        (retrieve_story so sid 1 cookies 0).1 ++ rest ∧
      ∀ e ∈ rest, (∃ url, e = Ev.coverReq url []) ∨
        (∃ pid, e = Ev.partReq pid cookies) ∨
        (∃ t, e = Ev.appendChapter t) ∨ (∃ t, e = Ev.emitTitle t) ∨
        (∃ t, e = Ev.addItemEv t) := by
  simp only [assemble_run]
  split
  · exact ⟨[], by simp, by simp⟩
  · exact ⟨[], by simp, by simp⟩
  · rename_i data _
    split
    · refine ⟨[Ev.coverReq data.cover []], rfl, ?_⟩
      intro e he
      rw [List.mem_singleton] at he
      exact Or.inl ⟨data.cover, he⟩
    · rename_i book2 _
      split <;>
      · refine ⟨[Ev.coverReq data.cover []] ++
          (add_chapters book2 data cookies po).1,
          List.append_assoc _ _ _, ?_⟩
        intro e he
        rcases List.mem_append.mp he with he | he
        · rw [List.mem_singleton] at he
          exact Or.inl ⟨data.cover, he⟩
        · rcases add_chapters_ev_shape book2 data cookies po e he
            with h | h | h | h
          · exact Or.inr (Or.inl h)
          · exact Or.inr (Or.inr (Or.inl h))
          · exact Or.inr (Or.inr (Or.inr (Or.inl h)))
          · exact Or.inr (Or.inr (Or.inr (Or.inr h)))

/-- C3 (amended): the credentials mapping produced at the start of a run
is passed unchanged into every chapter-content fetch and into the
initial metadata request — the run's trace begins with the metadata
request carrying the run's credentials; when that attempt raises, the
retried metadata request (the third event, after the back-off sleep)
falls back to the empty default credentials, and the run issues no
metadata request besides these; the cover fetch always runs with the
empty default credentials.  (The code only ever reads the mapping, so in
this pure embedding no operation can mutate it.) -/
theorem credentials_flow_amended (cookies : Cred) (sid : Nat)
    (so : Nat → Resp StoryData) (cr : Resp (List Nat))
    (po : Nat → Resp (List Nat)) :
    (∀ pid cs, Ev.partReq pid cs ∈ (assemble_run cookies sid so cr po).1 →
      cs = cookies) ∧
    (∀ url cs, Ev.coverReq url cs ∈ (assemble_run cookies sid so cr po).1 →
      cs = []) ∧
    ∃ rest : List Ev,
      ((assemble_run cookies sid so cr po).1 =
          Ev.storyReq sid cookies :: rest ∨
        (assemble_run cookies sid so cr po).1 =
          Ev.storyReq sid cookies :: Ev.sleepFor 15 ::
            Ev.storyReq sid [] :: rest) ∧
      ∀ sid' cs, Ev.storyReq sid' cs ∉ rest := by
  refine ⟨fun pid cs h => ?_, fun url cs h => ?_, ?_⟩
  · rcases run_ev_shape cookies sid so cr po _ h with ⟨cs', he, _⟩ | he |
      ⟨u, he⟩ | ⟨p, he⟩ | ⟨t, he⟩ | ⟨t, he⟩ | ⟨t, he⟩
    · cases he
    · cases he
    · cases he
    · cases he; rfl
    · cases he
    · cases he
    · cases he
  · rcases run_ev_shape cookies sid so cr po _ h with ⟨cs', he, _⟩ | he |
      ⟨u, he⟩ | ⟨p, he⟩ | ⟨t, he⟩ | ⟨t, he⟩ | ⟨t, he⟩
    · cases he
    · cases he
    · cases he; rfl
    · cases he
    · cases he
    · cases he
    · cases he
  · obtain ⟨rest, hsplit, hshape⟩ :=
      assemble_run_fst_decomp cookies sid so cr po
    have hnostory : ∀ sid' cs, Ev.storyReq sid' cs ∉ rest := by
      intro sid' cs hmem
      rcases hshape _ hmem with ⟨u, he⟩ | ⟨p, he⟩ | ⟨t, he⟩ | ⟨t, he⟩ |
        ⟨t, he⟩ <;> cases he
    rcases retrieve_story_one_fst so sid cookies with h1 | h1
    · refine ⟨rest, Or.inl ?_, hnostory⟩
      rw [hsplit, h1]
      rfl
    · refine ⟨rest, Or.inr ?_, hnostory⟩
      rw [hsplit, h1]
      rfl

/-- Witness for C3: on a concrete run whose first metadata attempt fails
with a 500 and whose retry succeeds, the first three trace events are
the initial metadata request carrying the run credentials, the 15-unit
sleep, and the retried metadata request carrying the empty mapping. -/
theorem credentials_flow_amended_witness :
    ((assemble_run sampleCred 1 c5Oracle ⟨200, [7]⟩ sampleOk).1.take 3) =
      [Ev.storyReq 1 sampleCred, Ev.sleepFor 15, Ev.storyReq 1 []] := by
  obtain ⟨rest, hor, hno⟩ :=
    (credentials_flow_amended sampleCred 1 c5Oracle ⟨200, [7]⟩
      sampleOk).2.2
  rcases hor with h1 | h1
  · exfalso
    refine hno 1 [] ?_
    have hmem : Ev.storyReq 1 [] ∈
        (assemble_run sampleCred 1 c5Oracle ⟨200, [7]⟩ sampleOk).1 := by
      decide
    rw [h1] at hmem
    rcases List.mem_cons.mp hmem with heq | hmem2
    · injection heq with h2 h3
      exact absurd h3 (by decide)
    · exact hmem2
  · rw [h1]
    rfl

lemma collapseAux_cons_ds_start (a : Nat) (v : List Nat)
    (hd : isDashSpace a = true) :
    collapseAux false (a :: v) = 45 :: collapseAux true v := by
  simp [collapseAux, hd]

lemma collapseAux_cons_ds_run (a : Nat) (v : List Nat)
    (hd : isDashSpace a = true) :
    collapseAux true (a :: v) = collapseAux true v := by
  simp [collapseAux, hd]

lemma collapseAux_cons_nods (b : Bool) (a : Nat) (v : List Nat)
    (hd : isDashSpace a = false) :
    collapseAux b (a :: v) = a :: collapseAux false v := by
  simp [collapseAux, hd]

lemma mem_collapseAux (c : Nat) : ∀ (v : List Nat) (b : Bool),
    c ∈ collapseAux b v → c = 45 ∨ (c ∈ v ∧ isDashSpace c = false) := by
  intro v
  induction v with
  | nil => intro b h; simp [collapseAux] at h
  | cons a rest ih =>
    intro b h
    by_cases hd : isDashSpace a = true
    · have hmem : c = 45 ∨ c ∈ collapseAux true rest := by
        rcases Bool.eq_false_or_eq_true b with hb | hb <;> subst hb
        · rw [collapseAux_cons_ds_run a rest hd] at h
          exact Or.inr h
        · rw [collapseAux_cons_ds_start a rest hd, List.mem_cons] at h
          exact h
      rcases hmem with h45 | hm
      · exact Or.inl h45
      · rcases ih true hm with h45 | ⟨hm2, hds⟩
        · exact Or.inl h45
        · exact Or.inr ⟨List.mem_cons_of_mem a hm2, hds⟩
    · simp only [Bool.not_eq_true] at hd
      rw [collapseAux_cons_nods b a rest hd, List.mem_cons] at h
      rcases h with h | h
      · subst h
        exact Or.inr ⟨List.mem_cons_self c rest, hd⟩
      · rcases ih false h with h45 | ⟨hm2, hds⟩
        · exact Or.inl h45
        · exact Or.inr ⟨List.mem_cons_of_mem a hm2, hds⟩

lemma mem_dropWhile_imp (p : Nat → Bool) :
    ∀ (l : List Nat) (c : Nat), c ∈ l.dropWhile p → c ∈ l := by
  intro l
  induction l with
  | nil => intro c h; simp at h
  | cons a rest ih =>
    intro c h
    rw [List.dropWhile_cons] at h
    split at h
    · exact List.mem_cons_of_mem a (ih c h)
    · exact h

lemma mem_stripEnds_imp (l : List Nat) (c : Nat) (h : c ∈ stripEnds l) :
    c ∈ l := by
  unfold stripEnds at h
  rw [List.mem_reverse] at h
  have h2 := mem_dropWhile_imp _ _ _ h
  rw [List.mem_reverse] at h2
  exact mem_dropWhile_imp _ _ _ h2

lemma head?_dropWhile_false (p : Nat → Bool) :
    ∀ (l : List Nat) (c : Nat), (l.dropWhile p).head? = some c →
      p c = false := by
  intro l
  induction l with
  | nil => intro c h; cases h
  | cons a rest ih =>
    intro c h
    rw [List.dropWhile_cons] at h
    split at h
    · exact ih c h
    · rename_i hneg
      injection h with h
      subst h
      simpa using hneg

lemma dropWhile_eq_self_of_head (p : Nat → Bool) (l : List Nat)
    (h : ∀ c, l.head? = some c → p c = false) : l.dropWhile p = l := by
  cases l with
  | nil => rfl
  | cons a rest =>
    rw [List.dropWhile_cons]
    simp [h a rfl]

lemma getLast?_dropWhile_ne_nil (p : Nat → Bool) :
    ∀ l : List Nat, l.dropWhile p ≠ [] →
      (l.dropWhile p).getLast? = l.getLast? := by
  intro l
  induction l with
  | nil => intro h; exact absurd rfl h
  | cons a rest ih =>
    intro h
    by_cases hp : p a = true
    · rw [List.dropWhile_cons, if_pos hp] at h ⊢
      rw [ih h]
      have hrest : rest ≠ [] := by
        intro hh
        subst hh
        simp at h
      cases rest with
      | nil => exact absurd rfl hrest
      | cons b t => rw [List.getLast?_cons_cons]
    · rw [List.dropWhile_cons, if_neg (by simp [hp])]

lemma head?_stripEnds (l : List Nat) :
    ∀ c, (stripEnds l).head? = some c → isStripCp c = false := by
  intro c h
  unfold stripEnds at h
  rw [List.head?_reverse] at h
  by_cases hnil : (l.dropWhile isStripCp).reverse.dropWhile isStripCp = []
  · rw [hnil] at h
    cases h
  · rw [getLast?_dropWhile_ne_nil _ _ hnil, List.getLast?_reverse] at h
    exact head?_dropWhile_false _ _ _ h

lemma getLast?_stripEnds (l : List Nat) :
    ∀ c, (stripEnds l).getLast? = some c → isStripCp c = false := by
  intro c h
  unfold stripEnds at h
  rw [List.getLast?_reverse] at h
  exact head?_dropWhile_false _ _ _ h

lemma stripEnds_eq_self (l : List Nat)
    (h1 : ∀ c, l.head? = some c → isStripCp c = false)
    (h2 : ∀ c, l.getLast? = some c → isStripCp c = false) :
    stripEnds l = l := by
  unfold stripEnds
  rw [dropWhile_eq_self_of_head _ _ h1]
  rw [dropWhile_eq_self_of_head]
  · exact List.reverse_reverse l
  · intro c hc
    rw [List.head?_reverse] at hc
    exact h2 c hc

lemma head?_collapseAux_true :
    ∀ (v : List Nat) (c : Nat), (collapseAux true v).head? = some c →
      isDashSpace c = false := by
  intro v
  induction v with
  | nil => intro c h; cases h
  | cons a rest ih =>
    intro c h
    by_cases hd : isDashSpace a = true
    · simp only [collapseAux, hd, if_true] at h
      exact ih c h
    · simp only [Bool.not_eq_true] at hd
      simp only [collapseAux, hd, Bool.false_eq_true, if_false,
        List.head?_cons] at h
      injection h with h
      subst h
      exact hd

lemma NoRun_collapseAux : ∀ (v : List Nat) (b : Bool),
    NoRun (collapseAux b v) := by
  intro v
  induction v with
  | nil => intro b; simp [collapseAux]
  | cons a rest ih =>
    intro b
    by_cases hd : isDashSpace a = true
    · rcases Bool.eq_false_or_eq_true b with hb | hb <;> subst hb
      · rw [collapseAux_cons_ds_run a rest hd]
        exact ih true
      · rw [collapseAux_cons_ds_start a rest hd]
        exact List.chain'_cons'.mpr
          ⟨fun y hy => Or.inr (head?_collapseAux_true rest y hy), ih true⟩
    · simp only [Bool.not_eq_true] at hd
      rw [collapseAux_cons_nods b a rest hd]
      exact List.chain'_cons'.mpr ⟨fun y _ => Or.inl hd, ih false⟩

lemma NoRun_dropWhile (p : Nat → Bool) (l : List Nat) (h : NoRun l) :
    NoRun (l.dropWhile p) := by
  induction l with
  | nil => simp
  | cons a rest ih =>
    rw [List.dropWhile_cons]
    split
    · exact ih h.tail
    · exact h

lemma NoRun_reverse (l : List Nat) (h : NoRun l) : NoRun l.reverse := by
  refine List.chain'_reverse.mpr ?_
  exact List.Chain'.imp (fun a b hab => hab.symm) h

lemma NoRun_stripEnds (l : List Nat) (h : NoRun l) : NoRun (stripEnds l) :=
  NoRun_reverse _ (NoRun_dropWhile _ _ (NoRun_reverse _
    (NoRun_dropWhile _ _ h)))

lemma collapseAux_eq_self : ∀ v : List Nat,
    (∀ c ∈ v, isSpaceCp c = false) → NoRun v →
    (collapseAux false v = v ∧
     ((∀ c, v.head? = some c → isDashSpace c = false) →
       collapseAux true v = v)) := by
  intro v
  induction v with
  | nil => intro _ _; exact ⟨rfl, fun _ => rfl⟩
  | cons a rest ih =>
    intro hsp hnr
    have hsp' : ∀ c ∈ rest, isSpaceCp c = false :=
      fun c hc => hsp c (List.mem_cons_of_mem a hc)
    have hnr' : NoRun rest := hnr.tail
    obtain ⟨ihf, iht⟩ := ih hsp' hnr'
    by_cases hd : isDashSpace a = true
    · have ha45 : a = 45 := by
        have hs := hsp a (List.mem_cons_self a rest)
        simp only [isDashSpace, hs, Bool.or_false, beq_iff_eq] at hd
        exact hd
      have hh : ∀ c, rest.head? = some c → isDashSpace c = false := by
        intro c hc
        rcases (List.chain'_cons'.mp hnr).1 c hc with h | h
        · simp [hd] at h
        · exact h
      constructor
      · rw [collapseAux_cons_ds_start a rest hd, iht hh, ha45]
      · intro hhead
        have := hhead a rfl
        simp [hd] at this
    · simp only [Bool.not_eq_true] at hd
      constructor
      · rw [collapseAux_cons_nods false a rest hd, ihf]
      · intro _
        rw [collapseAux_cons_nods true a rest hd, ihf]

lemma mem_flatten_nfkd_lt : ∀ (l : List Nat) (c : Nat),
    c ∈ (l.map nfkdAsciiCp).flatten → c < 128 := by
  intro l
  induction l with
  | nil => intro c h; simp at h
  | cons a rest ih =>
    intro c h
    rw [List.map_cons, List.flatten_cons, List.mem_append] at h
    rcases h with h | h
    · unfold nfkdAsciiCp at h
      split at h
      · rw [List.mem_singleton] at h
        subst h
        assumption
      · simp at h
    · exact ih c h

lemma flatten_nfkd_eq_self : ∀ l : List Nat, (∀ c ∈ l, c < 128) →
    (l.map nfkdAsciiCp).flatten = l := by
  intro l
  induction l with
  | nil => intro _; rfl
  | cons a rest ih =>
    intro h
    rw [List.map_cons, List.flatten_cons,
      ih (fun c hc => h c (List.mem_cons_of_mem a hc))]
    unfold nfkdAsciiCp
    rw [if_pos (h a (List.mem_cons_self a rest))]
    rfl

lemma pyLowerCp_lt (c : Nat) (h : c < 128) : pyLowerCp c < 128 := by
  unfold pyLowerCp
  split
  · rename_i hu
    simp only [isAsciiUpper, Bool.and_eq_true, decide_eq_true_eq] at hu
    omega
  · exact h

lemma pyLowerCp_not_upper (c : Nat) : isAsciiUpper (pyLowerCp c) = false := by
  unfold pyLowerCp
  split
  · rename_i hu
    simp only [isAsciiUpper, Bool.and_eq_true, decide_eq_true_eq] at hu
    simp only [isAsciiUpper, Bool.and_eq_false_iff, decide_eq_false_iff_not]
    omega
  · rename_i hu
    simpa using hu

lemma pyLowerCp_id (c : Nat) (h : isAsciiUpper c = false) :
    pyLowerCp c = c := by
  unfold pyLowerCp
  simp [h]

lemma map_eq_self_of_mem {α : Type} (f : α → α) :
    ∀ l : List α, (∀ a ∈ l, f a = a) → l.map f = l := by
  intro l
  induction l with
  | nil => intro _; rfl
  | cons a rest ih =>
    intro h
    rw [List.map_cons, h a (List.mem_cons_self a rest),
      ih (fun b hb => h b (List.mem_cons_of_mem a hb))]

lemma filter_eq_self_of_mem (p : Nat → Bool) :
    ∀ l : List Nat, (∀ a ∈ l, p a = true) → l.filter p = l := by
  intro l
  induction l with
  | nil => intro _; rfl
  | cons a rest ih =>
    intro h
    rw [List.filter_cons, if_pos (h a (List.mem_cons_self a rest)),
      ih (fun b hb => h b (List.mem_cons_of_mem a hb))]

lemma mem_slugify_default (x : List Nat) :
    ∀ c ∈ slugify x false, c = 45 ∨
      (keepCp c = true ∧ isDashSpace c = false ∧ c < 128 ∧
       isAsciiUpper c = false) := by
  intro c hc
  replace hc : c ∈ stripEnds (collapseAux false
      (((x.map nfkdAsciiCp).flatten.map pyLowerCp).filter keepCp)) := hc
  have hc2 := mem_stripEnds_imp _ _ hc
  rcases mem_collapseAux c _ false hc2 with h45 | ⟨hw, hds⟩
  · exact Or.inl h45
  · rw [List.mem_filter] at hw
    obtain ⟨hmem, hkeep⟩ := hw
    rw [List.mem_map] at hmem
    obtain ⟨d, hd, rfl⟩ := hmem
    have hdlt := mem_flatten_nfkd_lt x d hd
    exact Or.inr ⟨hkeep, hds, pyLowerCp_lt d hdlt, pyLowerCp_not_upper d⟩

lemma allowedCp_of (c : Nat) (hk : keepCp c = true)
    (hd : isDashSpace c = false) (hl : c < 128)
    (hu : isAsciiUpper c = false) : allowedCp c = true := by
  simp only [keepCp, isWordCp, isSpaceCp, isDashSpace, isAsciiDigit,
    isAsciiLower, isAsciiUpper, allowedCp, Bool.or_eq_true,
    Bool.or_eq_false_iff, Bool.and_eq_true, Bool.and_eq_false_iff,
    decide_eq_true_eq, decide_eq_false_iff_not, beq_iff_eq,
    beq_eq_false_iff_ne, ne_eq] at hk hd hu ⊢
  omega

/-- C2 (counterexample): in default mode `slugify("a_b")` returns
`"a_b"`, which contains an underscore — a character that is neither a
lower-case alphanumeric nor a hyphen — so the claimed output alphabet is
too small. -/
theorem slugify_claimed_charset_refuted :
    slugify (cps "a_b") false = cps "a_b" ∧
    (slugify (cps "a_b") false).all c2ClaimChar = false := by decide

/-- C2 (amended): in default mode every output character is a lower-case
ASCII alphanumeric, a hyphen, or an underscore (interior underscores
survive, since the filter keeps word characters), and the output has no
leading or trailing hyphen or underscore. -/
theorem slugify_charset_amended (x : List Nat) :
    (slugify x false).all allowedCp = true ∧
    (∀ c, (slugify x false).head? = some c → isStripCp c = false) ∧
    (∀ c, (slugify x false).getLast? = some c → isStripCp c = false) := by
  refine ⟨?_, ?_, ?_⟩
  · rw [List.all_eq_true]
    intro c hc
    rcases mem_slugify_default x c hc with rfl | ⟨hk, hd, hl, hu⟩
    · rfl
    · exact allowedCp_of c hk hd hl hu
  · intro c hc
    exact head?_stripEnds _ c hc
  · intro c hc
    exact getLast?_stripEnds _ c hc

/-- Witness for C2: the amended alphabet holds of `slugify("a_b")`, and
its head (the letter a, code point 97) is not a strip character. -/
theorem slugify_charset_amended_witness :
    (slugify (cps "a_b") false).all allowedCp = true ∧
      isStripCp 97 = false :=
  ⟨(slugify_charset_amended (cps "a_b")).1,
   (slugify_charset_amended (cps "a_b")).2.1 97 (by decide)⟩

/-- C9 (counterexample): in Unicode-preserving mode slugify is not
idempotent.  On the input U+1100, ".", U+1161 the first pass removes the
dot, leaving the two Hangul jamo adjacent; the second pass's NFKC
normalization composes them into the syllable U+AC00, changing the
string. -/
theorem slugify_unicode_idem_refuted :
    slugify (slugify [0x1100, 46, 0x1161] true) true ≠
      slugify [0x1100, 46, 0x1161] true := by decide

/-- C9 (amended): slugify is deterministic (it is a pure function of its
arguments) and idempotent in the default mode: re-slugifying a
default-mode output returns it unchanged. -/
theorem slugify_default_idempotent (x : List Nat) :
    slugify (slugify x false) false = slugify x false := by
  have hmem := mem_slugify_default x
  have h128 : ∀ c ∈ slugify x false, c < 128 := by
    intro c hc
    rcases hmem c hc with rfl | ⟨_, _, h, _⟩
    · omega
    · exact h
  have hupper : ∀ c ∈ slugify x false, isAsciiUpper c = false := by
    intro c hc
    rcases hmem c hc with rfl | ⟨_, _, _, h⟩
    · rfl
    · exact h
  have hkeep : ∀ c ∈ slugify x false, keepCp c = true := by
    intro c hc
    rcases hmem c hc with rfl | ⟨h, _, _, _⟩
    · rfl
    · exact h
  have hnospace : ∀ c ∈ slugify x false, isSpaceCp c = false := by
    intro c hc
    rcases hmem c hc with rfl | ⟨_, h, _, _⟩
    · rfl
    · simp only [isDashSpace, Bool.or_eq_false_iff] at h
      exact h.2
  have hnr : NoRun (slugify x false) :=
    NoRun_stripEnds _ (NoRun_collapseAux _ false)
  have hhead : ∀ c, (slugify x false).head? = some c →
      isStripCp c = false :=
    fun c hc => head?_stripEnds _ c hc
  have hlast : ∀ c, (slugify x false).getLast? = some c →
      isStripCp c = false :=
    fun c hc => getLast?_stripEnds _ c hc
  show stripEnds (collapseDashSpace
      ((((slugify x false).map nfkdAsciiCp).flatten.map pyLowerCp).filter
        keepCp)) = slugify x false
  rw [flatten_nfkd_eq_self _ h128]
  rw [map_eq_self_of_mem _ _ (fun c hc => pyLowerCp_id c (hupper c hc))]
  rw [filter_eq_self_of_mem _ _ hkeep]
  show stripEnds (collapseAux false (slugify x false)) = slugify x false
  rw [(collapseAux_eq_self _ hnospace hnr).1]
  exact stripEnds_eq_self _ hhead hlast
